import Mathlib

/-!
# Course-scheduling core: shallow embedding and verification

This file embeds the course-scheduling core of the repository
(time-string parsing, meeting-conflict detection, schedule conflict
scanning, calendar layout, and schedule removal) as executable Lean
definitions, and proves the specified properties about them.

The embedding follows the TypeScript source closely:

* `timeToMinutes` embeds the helper of the same name, including the
  semantics of the unanchored JavaScript regular expression
  `(\d+):(\d+)(AM|PM)` applied with `String.prototype.match` (leftmost
  occurrence, greedy digit runs).
* `meetingsConflict` embeds the conflict detector, including the
  fail-open `try/catch` (a missing `-` separator makes the original
  dereference `undefined` and throw; the exception is caught and the
  function returns `false`).
* `findConflicts` embeds the pairwise schedule scanner.  Course records
  carry their meetings as an already-decoded list of strings (the source
  stores them JSON-serialized and decodes with `JSON.parse` at entry).
* `buildColorMap` / `parseCourseMeetings` / `generateCourseBlocks` embed
  the SVG calendar engine's color assignment, day bucketing and block
  geometry; geometry is computed in `ℚ` (the source arithmetic is exact
  on these small rationals).
* `removeCourseFromSchedule` embeds the SQL `DELETE` performed by the
  removal tool over an explicit relational state.
-/

/-! ## Time utility (`timeToMinutes`) -/

/-- Split a character list into its maximal leading run of decimal digits
and the remainder (the behaviour of a greedy `\d+` at a fixed position). -/
def spanDigits : List Char → List Char × List Char
  | [] => ([], [])
  | c :: cs =>
    if c.isDigit then
      let p := spanDigits cs
      (c :: p.1, p.2)
    else ([], c :: cs)

/-- Try to match the regular expression `(\d+):(\d+)(AM|PM)` at the very
start of the character list.  Returns the two digit groups and whether the
suffix was `PM`.  Backtracking cannot shorten either digit group (the
character after a maximal digit run is never a digit), so greedy runs are
exact. -/
def matchTimeAt (cs : List Char) : Option (List Char × List Char × Bool) :=
  let p1 := spanDigits cs
  if p1.1 = [] then none
  else if p1.2.head? = some ':' then
    let p2 := spanDigits p1.2.tail
    if p2.1 = [] then none
    else if p2.2.head? = some 'A' ∧ p2.2.tail.head? = some 'M' then
      some (p1.1, p2.1, false)
    else if p2.2.head? = some 'P' ∧ p2.2.tail.head? = some 'M' then
      some (p1.1, p2.1, true)
    else none
  else none

/-- Leftmost match of `(\d+):(\d+)(AM|PM)` in a character list: the
semantics of JavaScript `str.match(/(\d+):(\d+)(AM|PM)/)`. -/
def findTimeMatch : List Char → Option (List Char × List Char × Bool)
  | [] => none
  | c :: cs =>
    match matchTimeAt (c :: cs) with
    | some m => some m
    | none => findTimeMatch cs

/-- Decimal value of a digit string (the behaviour of `parseInt(s, 10)` on
a string of digits). -/
def digitsToNat (ds : List Char) : Nat :=
  ds.foldl (fun n c => n * 10 + (c.toNat - 48)) 0

/-- `timeToMinutes` on a raw character list (the wrapper `timeToMinutes`
applies it to `String.data`). -/
def timeToMinutesList (cs : List Char) : Nat :=
  match findTimeMatch cs with
  | none => 0
  | some (hoursStr, minutesStr, isPM) =>
    let hours := digitsToNat hoursStr
    let minutes := digitsToNat minutesStr
    let hours := if isPM = true ∧ hours ≠ 12 then hours + 12 else hours
    let hours := if isPM = false ∧ hours = 12 then 0 else hours
    hours * 60 + minutes

/-- Embedding of `timeToMinutes` (course-helpers): convert a time string
like `"10:10AM"` to minutes since midnight; on no regex match return 0. -/
def timeToMinutes (timeStr : String) : Nat :=
  timeToMinutesList timeStr.data

example : timeToMinutes "10:10AM" = 610 := by decide
example : timeToMinutes "12:00AM" = 0 := by decide
example : timeToMinutes "12:00PM" = 720 := by decide
example : timeToMinutes "11:59PM" = 1439 := by decide
example : timeToMinutes "hello" = 0 := by decide
example : timeToMinutes "13:30PM" = 1530 := by decide
example : timeToMinutes "1:99PM" = 879 := by decide
example : timeToMinutes "x1:30AM 2:45PM" = 90 := by decide

/-! ## Meeting conflict detector (`meetingsConflict`) -/

/-- Split a character list at every occurrence of a separator character:
the behaviour of JavaScript `str.split(sep)` for a one-character
separator (`"".split(" ") = [""]`, adjacent separators yield empty
tokens). -/
def splitOnChar (sep : Char) : List Char → List (List Char)
  | [] => [[]]
  | c :: cs =>
    if c = sep then [] :: splitOnChar sep cs
    else
      match splitOnChar sep cs with
      | t :: ts => (c :: t) :: ts
      | [] => [[c]]

/-- Embedding of `meetingsConflict` (course-helpers): check whether two
meeting strings such as `"MW 10:10AM-11:25AM"` conflict.  The source
splits each string on `" "`, requires at least two tokens, intersects the
day letters (`days2.includes(day)` on one-character strings is character
membership), splits each time token on `"-"`, and compares the parsed
minutes; when a time token has no `-` the original dereferences
`undefined`, throws, and the surrounding `try/catch` returns `false`. -/
def meetingsConflict (meeting1 meeting2 : String) : Bool :=
  let parts1 := splitOnChar ' ' meeting1.data
  let parts2 := splitOnChar ' ' meeting2.data
  if parts1.length < 2 ∨ parts2.length < 2 then false
  else
    let days1 := parts1.getD 0 []
    let time1 := parts1.getD 1 []
    let days2 := parts2.getD 0 []
    let time2 := parts2.getD 1 []
    if ¬ days1.any (fun day => days2.contains day) then false
    else
      match splitOnChar '-' time1, splitOnChar '-' time2 with
      | start1 :: end1 :: _, start2 :: end2 :: _ =>
        decide (timeToMinutesList start1 < timeToMinutesList end2 ∧
                timeToMinutesList start2 < timeToMinutesList end1)
      | _, _ => false

example : meetingsConflict "MW 10:10AM-11:25AM" "TR 02:55PM-04:10PM" = false := by decide
example : meetingsConflict "MW 10:10AM-11:25AM" "MF 11:00AM-12:15PM" = true := by decide
example : meetingsConflict "MW 09:00AM-10:00AM" "MW 10:00AM-11:00AM" = false := by decide
example : meetingsConflict "MW" "MW 10:00AM-11:00AM" = false := by decide

/-! ## Schedule conflict scanner (`findConflicts`) -/

/-- A course record as consumed by the scanner and the calendar engine.
The source's `Course` interface stores `meetings` as a JSON string that is
decoded with `JSON.parse` on entry to each consumer; here `meetings` is
that decoded array of meeting strings. -/
structure Course where
  subject : String
  catalog_nbr : String
  title : String
  meetings : List String
  deriving DecidableEq, Repr, Inhabited

/-- A detected time conflict between two courses, as produced by
`findConflicts`. -/
structure Conflict where
  course1 : String
  course2 : String
  reason : String
  deriving DecidableEq, Repr

/-- The course label used in conflict records:
`` `${subject} ${catalog_nbr}: ${title}` ``. -/
def conflictLabel (c : Course) : String :=
  c.subject ++ " " ++ c.catalog_nbr ++ ": " ++ c.title

/-- The conflict record pushed by `findConflicts` for one conflicting
meeting pair: both course labels and the reason
`` `${meeting1} conflicts with ${meeting2}` ``. -/
def mkConflict (course1 course2 : Course) (meeting1 meeting2 : String) : Conflict :=
  { course1 := conflictLabel course1
    course2 := conflictLabel course2
    reason := meeting1 ++ " conflicts with " ++ meeting2 }

/-- All conflict records produced for one ordered pair of courses: the
inner two loops of `findConflicts` (every meeting of `course1` against
every meeting of `course2`, in order). -/
def conflictsBetween (course1 course2 : Course) : List Conflict :=
  course1.meetings.flatMap fun meeting1 =>
    course2.meetings.filterMap fun meeting2 =>
      if meetingsConflict meeting1 meeting2 then
        some (mkConflict course1 course2 meeting1 meeting2)
      else none

/-- Embedding of `findConflicts` (course-helpers): the source iterates
indices `i` from `0` and `j` from `i + 1`, comparing every meeting pair;
peeling the head course and comparing it with each later course in order
is the same double loop. -/
def findConflicts : List Course → List Conflict
  | [] => []
  | course :: rest => rest.flatMap (conflictsBetween course) ++ findConflicts rest

/-! ## Calendar layout engine -/

/-- The rendering configuration of the SVG calendar
(`CalendarConfig`). The source stores JavaScript numbers; all the
geometry arithmetic on them is exact rational arithmetic, embedded
in `ℚ`. -/
structure CalendarConfig where
  width : ℚ
  height : ℚ
  headerHeight : ℚ
  timeColumnWidth : ℚ
  hourHeight : ℚ
  startHour : ℚ
  endHour : ℚ
  deriving DecidableEq, Repr

/-- `DEFAULT_CONFIG` of the SVG calendar module. -/
def DEFAULT_CONFIG : CalendarConfig :=
  { width := 900
    height := 700
    headerHeight := 50
    timeColumnWidth := 80
    hourHeight := 50
    startHour := 8
    endHour := 20 }

/-- The weekday codes of the calendar grid (`DAYS`). -/
def DAYS : List String := ["M", "T", "W", "R", "F"]

/-- The fixed cyclic color palette (`COLORS`). -/
def COLORS : List String :=
  ["#3b82f6", "#ef4444", "#10b981", "#f59e0b", "#8b5cf6", "#ec4899", "#14b8a6"]

/-- One positioned calendar entry (`CourseBlock`): course label, title,
raw start/end time strings and assigned color.  When a meeting's time
token has no `-`, the source leaves `endTime` undefined; the embedding
uses the empty character list there. -/
structure CourseBlock where
  course : String
  title : String
  startTime : String
  endTime : String
  color : String
  deriving DecidableEq, Repr

/-- The course key used for color grouping:
`` `${course.subject} ${course.catalog_nbr}` ``. -/
def courseKey (c : Course) : String :=
  c.subject ++ " " ++ c.catalog_nbr

/-- One step of the first pass of `parseCourseMeetings`: if the course's
key is not yet in the map, append it with the next palette color
`COLORS[uniqueCourses.length % COLORS.length]` (the number of entries so
far is `uniqueCourses.length`). -/
def colorStep (acc : List (String × String)) (c : Course) : List (String × String) :=
  let key := courseKey c
  if (acc.find? fun e => e.1 = key).isSome then acc
  else acc ++ [(key, COLORS.getD (acc.length % COLORS.length) "")]

/-- First pass of `parseCourseMeetings`: build the insertion-ordered map
from distinct `(subject, catalog_nbr)` keys to palette colors
(`courseColorMap`). -/
def buildColorMap (courses : List Course) : List (String × String) :=
  courses.foldl colorStep []

/-- Color looked up for a key in the finished color map
(`courseColorMap.get(courseKey)!`). -/
def lookupColor (courses : List Course) (key : String) : String :=
  ((buildColorMap courses).find? fun e => e.1 = key).elim "" Prod.snd

/-- Append a block to the bucket of one day key, leaving every other
bucket unchanged (`dayMap.get(day).push(block); dayMap.set(day, ...)`). -/
def pushBlock (dayMap : List (String × List CourseBlock)) (day : String)
    (b : CourseBlock) : List (String × List CourseBlock) :=
  dayMap.map fun entry => if entry.1 = day then (entry.1, entry.2 ++ [b]) else entry

/-- Embedding of `parseCourseMeetings` (SVG calendar): assign colors per
distinct course key, then bucket every parsable meeting of every course
into the weekday map, one block per day letter that is a calendar day. -/
def parseCourseMeetings (courses : List Course) : List (String × List CourseBlock) :=
  let init := DAYS.map fun d => (d, ([] : List CourseBlock))
  courses.foldl
    (fun dayMap course =>
      let key := courseKey course
      let color := lookupColor courses key
      course.meetings.foldl
        (fun dayMap meeting =>
          let parts := splitOnChar ' ' meeting.data
          if parts.length < 2 then dayMap
          else
            let daysStr := parts.getD 0 []
            let timeStr := parts.getD 1 []
            let timeParts := splitOnChar '-' timeStr
            let startTime := String.mk (timeParts.getD 0 [])
            let endTime := String.mk (timeParts.getD 1 [])
            daysStr.foldl
              (fun dayMap dayCode =>
                if DAYS.contains (String.mk [dayCode]) then
                  pushBlock dayMap (String.mk [dayCode])
                    { course := key
                      title := course.title
                      startTime := startTime
                      endTime := endTime
                      color := color }
                else dayMap)
              dayMap)
        dayMap)
    init

/-- The numeric content of one rendered course rectangle: the day column
index and the position and size that `generateCourseBlocks` writes into
the `<rect>` element, together with the data echoed into its labels. -/
structure BlockGeom where
  dayIdx : Nat
  x : ℚ
  y : ℚ
  w : ℚ
  h : ℚ
  color : String
  course : String
  startTime : String
  endTime : String
  deriving DecidableEq, Repr

/-- Embedding of `generateCourseBlocks` (SVG calendar): for every day
column and every block in its bucket, compute the rendered rectangle
geometry
(`startY = headerHeight + (startMin/60 - startHour) * hourHeight`,
`blockHeight = (endMin - startMin)/60 * hourHeight`,
`x = timeColumnWidth + dayIdx * dayWidth + 5`, `width = dayWidth - 10`
with `dayWidth = (width - timeColumnWidth)/5`). -/
def generateCourseBlocks (dayMap : List (String × List CourseBlock))
    (config : CalendarConfig) : List BlockGeom :=
  let dayWidth := (config.width - config.timeColumnWidth) / 5
  DAYS.enum.flatMap fun d =>
    (((dayMap.find? fun e => e.1 = d.2).elim [] Prod.snd).map fun block =>
      let startMin := timeToMinutes block.startTime
      let endMin := timeToMinutes block.endTime
      { dayIdx := d.1
        x := config.timeColumnWidth + d.1 * dayWidth + 5
        y := config.headerHeight + ((startMin : ℚ) / 60 - config.startHour) * config.hourHeight
        w := dayWidth - 10
        h := (((endMin : ℚ) - (startMin : ℚ)) / 60) * config.hourHeight
        color := block.color
        course := block.course
        startTime := block.startTime
        endTime := block.endTime })

/-! ## Schedule removal (`removeCourseFromSchedule`) -/

/-- One row of the `user_schedules` table as far as the removal tool
reads it. -/
structure ScheduleEntry where
  user_id : String
  course_id : String
  deriving DecidableEq, Repr

/-- One row of the `courses` table as far as the removal tool's subquery
reads it. -/
structure CourseRow where
  id : String
  subject : String
  catalog_nbr : String
  deriving DecidableEq, Repr

/-- Does a schedule entry match the removal tool's `DELETE ... WHERE`
clause: it belongs to the requesting user and its `course_id` is among
the ids of courses with the given subject and catalog number. -/
def removeMatches (coursesTable : List CourseRow) (userId subject catalogNbr : String)
    (e : ScheduleEntry) : Bool :=
  e.user_id = userId ∧
    coursesTable.any fun c =>
      c.id = e.course_id ∧ c.subject = subject ∧ c.catalog_nbr = catalogNbr

/-- Embedding of the `removeCourseFromSchedule` tool: split the compound
key on `"-"` into subject and catalog number, delete every matching row
of `user_schedules`, and report either success or that the course was not
in the schedule (`result.meta.changes === 0`).  Returns the surviving
rows and the user-visible message. -/
def removeCourseFromSchedule (coursesTable : List CourseRow)
    (schedules : List ScheduleEntry) (userId courseId : String) :
    List ScheduleEntry × String :=
  let parts := splitOnChar '-' courseId.data
  let subject := String.mk (parts.getD 0 [])
  let catalogNbr := String.mk (parts.getD 1 [])
  let remaining :=
    schedules.filter fun e => ¬ removeMatches coursesTable userId subject catalogNbr e
  let changes := schedules.length - remaining.length
  if changes = 0 then
    (remaining, "Course " ++ courseId ++ " was not in your schedule.")
  else
    (remaining, "Successfully removed course " ++ courseId ++ " from your schedule.")

/-! ## Specification-side predicates for the time utility -/

/-- The AM/PM suffix characters for a given PM flag. -/
def amPmChars (pm : Bool) : List Char := if pm then ['P', 'M'] else ['A', 'M']

/-- Declarative statement that the pattern `(\d+):(\d+)(AM|PM)` occurs
somewhere in a character list: some substring consists of one or more
digits, a colon, one or more digits, and `AM` or `PM`. -/
def hasTimePattern (cs : List Char) : Prop :=
  ∃ pre d1 d2 pm tail,
    cs = pre ++ d1 ++ ':' :: (d2 ++ amPmChars pm ++ tail) ∧
    d1 ≠ [] ∧ d2 ≠ [] ∧
    (∀ c ∈ d1, c.isDigit = true) ∧ (∀ c ∈ d2, c.isDigit = true)

/-- The conversion the specification describes for a 12-hour wall-clock
reading: hour mod 12 for the wraparound, plus 12 hours for a PM suffix,
times 60, plus the minutes (so `12:xxAM ↦ xx` and `12:xxPM ↦ 720 + xx`). -/
def twelveHourToMinutes (h m : Nat) (pm : Bool) : Nat :=
  (h % 12 + if pm then 12 else 0) * 60 + m

/-- A character list that is exactly a well-formed `H:MM`/`HH:MM` time
with an `AM`/`PM` suffix reading hour `h` and minute `m`. -/
def ValidTime (cs : List Char) (h m : Nat) (pm : Bool) : Prop :=
  ∃ d1 d2,
    cs = d1 ++ ':' :: (d2 ++ amPmChars pm) ∧
    (d1.length = 1 ∨ d1.length = 2) ∧ d2.length = 2 ∧
    (∀ c ∈ d1, c.isDigit = true) ∧ (∀ c ∈ d2, c.isDigit = true) ∧
    digitsToNat d1 = h ∧ digitsToNat d2 = m

/-! ## Lemmas about the regex scanner -/

lemma spanDigits_append (d r : List Char) (hd : ∀ c ∈ d, c.isDigit = true)
    (hr : ∀ c, r.head? = some c → c.isDigit = false) :
    spanDigits (d ++ r) = (d, r) := by
  induction d with
  | nil =>
    cases r with
    | nil => rfl
    | cons c cs =>
      have : c.isDigit = false := hr c rfl
      simp [spanDigits, this]
  | cons c d ih =>
    have hc : c.isDigit = true := hd c (by simp)
    have := ih (fun x hx => hd x (by simp [hx]))
    simp [spanDigits, hc, this]


lemma spanDigits_spec {cs g r : List Char} (hsp : spanDigits cs = (g, r)) :
    cs = g ++ r ∧ (∀ c ∈ g, c.isDigit = true) ∧
      (∀ c, r.head? = some c → c.isDigit = false) := by
  induction cs generalizing g r with
  | nil =>
    simp only [spanDigits, Prod.mk.injEq] at hsp
    obtain ⟨h1, h2⟩ := hsp
    subst h1; subst h2
    simp
  | cons c cs ih =>
    by_cases hc : c.isDigit
    · rcases hsp' : spanDigits cs with ⟨g', r'⟩
      obtain ⟨ih1, ih2, ih3⟩ := ih hsp'
      simp only [spanDigits, hc, if_true, hsp', Prod.mk.injEq] at hsp
      obtain ⟨h1, h2⟩ := hsp
      subst h1; subst h2
      refine ⟨by simpa using ih1, ?_, ih3⟩
      intro x hx
      rcases List.mem_cons.mp hx with hx | hx
      · exact hx ▸ hc
      · exact ih2 x hx
    · have hc' : c.isDigit = false := by simpa using hc
      simp only [spanDigits, hc', Bool.false_eq_true, if_false, Prod.mk.injEq] at hsp
      obtain ⟨h1, h2⟩ := hsp
      subst h1; subst h2
      refine ⟨by simp, by simp, ?_⟩
      intro x hx
      simp only [List.head?_cons, Option.some.injEq] at hx
      exact hx ▸ hc'

lemma matchTimeAt_of_pattern (d1 d2 tail : List Char) (pm : Bool)
    (h1 : d1 ≠ []) (h2 : d2 ≠ [])
    (hd1 : ∀ c ∈ d1, c.isDigit = true) (hd2 : ∀ c ∈ d2, c.isDigit = true) :
    matchTimeAt (d1 ++ ':' :: (d2 ++ amPmChars pm ++ tail)) = some (d1, d2, pm) := by
  have hcol : ∀ c : Char, (':' :: (d2 ++ amPmChars pm ++ tail)).head? = some c →
      c.isDigit = false := by
    intro c hc
    rw [List.head?_cons, Option.some.injEq] at hc
    subst hc
    decide
  have hsuf : ∀ c : Char, (amPmChars pm ++ tail).head? = some c → c.isDigit = false := by
    intro c hc
    cases pm <;> simp [amPmChars] at hc <;> subst hc <;> decide
  have hs1 : spanDigits (d1 ++ ':' :: (d2 ++ amPmChars pm ++ tail)) =
      (d1, ':' :: (d2 ++ amPmChars pm ++ tail)) :=
    spanDigits_append _ _ hd1 hcol
  have hs2 : spanDigits (d2 ++ (amPmChars pm ++ tail)) = (d2, amPmChars pm ++ tail) :=
    spanDigits_append _ _ hd2 hsuf
  simp only [matchTimeAt, hs1, if_neg h1, List.head?_cons, List.tail_cons, if_true]
  cases pm <;> simp [amPmChars] at hs2 ⊢ <;> simp [hs2, h2]

lemma matchTimeAt_some_spec {cs d1 d2 : List Char} {pm : Bool}
    (h : matchTimeAt cs = some (d1, d2, pm)) :
    ∃ tail, cs = d1 ++ ':' :: (d2 ++ amPmChars pm ++ tail) ∧
      d1 ≠ [] ∧ d2 ≠ [] ∧
      (∀ c ∈ d1, c.isDigit = true) ∧ (∀ c ∈ d2, c.isDigit = true) := by
  rcases hsp : spanDigits cs with ⟨g1, r1⟩
  obtain ⟨hcs, hdig, -⟩ := spanDigits_spec hsp
  simp only [matchTimeAt, hsp] at h
  cases r1 with
  | nil => simp at h
  | cons c r2 =>
    simp only [List.head?_cons, List.tail_cons] at h
    rcases hsp2 : spanDigits r2 with ⟨g2, r3⟩
    obtain ⟨hr2, hdig2, -⟩ := spanDigits_spec hsp2
    rw [hsp2] at h
    simp only at h
    split_ifs at h with hg1 hc hg2 hAM hPM
    all_goals simp only [Option.some.injEq, Prod.mk.injEq, reduceCtorEq] at h
    · obtain ⟨e1, e2, e3⟩ := h
      subst e1; subst e2; subst e3
      simp only [Option.some.injEq] at hc
      subst hc
      obtain ⟨ha, hm⟩ := hAM
      cases r3 with
      | nil => simp at ha
      | cons a r3' =>
        simp only [List.head?_cons, Option.some.injEq] at ha
        subst ha
        simp only [List.tail_cons] at hm
        cases r3' with
        | nil => simp at hm
        | cons b rest =>
          simp only [List.head?_cons, Option.some.injEq] at hm
          subst hm
          refine ⟨rest, ?_, hg1, hg2, hdig, hdig2⟩
          rw [hcs, hr2]
          simp [amPmChars]
    · obtain ⟨e1, e2, e3⟩ := h
      subst e1; subst e2; subst e3
      simp only [Option.some.injEq] at hc
      subst hc
      obtain ⟨hp, hm⟩ := hPM
      cases r3 with
      | nil => simp at hp
      | cons a r3' =>
        simp only [List.head?_cons, Option.some.injEq] at hp
        subst hp
        simp only [List.tail_cons] at hm
        cases r3' with
        | nil => simp at hm
        | cons b rest =>
          simp only [List.head?_cons, Option.some.injEq] at hm
          subst hm
          refine ⟨rest, ?_, hg1, hg2, hdig, hdig2⟩
          rw [hcs, hr2]
          simp [amPmChars]

lemma findTimeMatch_of_matchTimeAt {cs : List Char} {m : List Char × List Char × Bool}
    (h : matchTimeAt cs = some m) : findTimeMatch cs = some m := by
  cases cs with
  | nil => simp [matchTimeAt, spanDigits] at h
  | cons c cs => simp [findTimeMatch, h]

lemma findTimeMatch_isSome_iff (cs : List Char) :
    (findTimeMatch cs).isSome = true ↔ hasTimePattern cs := by
  induction cs with
  | nil =>
    simp only [findTimeMatch, Option.isSome_none, Bool.false_eq_true, false_iff]
    rintro ⟨pre, d1, d2, pm, tail, heq, h1, -⟩
    simp at heq
  | cons c cs ih =>
    cases hm : matchTimeAt (c :: cs) with
    | some m =>
      obtain ⟨g1, g2, pm⟩ := m
      obtain ⟨tail, heq, h1, h2, hd1, hd2⟩ := matchTimeAt_some_spec hm
      simp only [findTimeMatch, hm, Option.isSome_some]
      constructor
      · intro _
        exact ⟨[], g1, g2, pm, tail, by simpa using heq, h1, h2, hd1, hd2⟩
      · intro _
        trivial
    | none =>
      simp only [findTimeMatch, hm]
      rw [ih]
      constructor
      · rintro ⟨pre, d1, d2, pm, tail, heq, h1, h2, hd1, hd2⟩
        exact ⟨c :: pre, d1, d2, pm, tail, by simp [heq], h1, h2, hd1, hd2⟩
      · rintro ⟨pre, d1, d2, pm, tail, heq, h1, h2, hd1, hd2⟩
        cases pre with
        | cons p pre' =>
          simp only [List.cons_append, List.cons.injEq] at heq
          exact ⟨pre', d1, d2, pm, tail, heq.2, h1, h2, hd1, hd2⟩
        | nil =>
          simp only [List.nil_append] at heq
          have hmt := matchTimeAt_of_pattern d1 d2 tail pm h1 h2 hd1 hd2
          rw [← heq, hm] at hmt
          cases hmt

lemma timeToMinutesList_eq_zero_of_no_pattern {cs : List Char}
    (h : ¬ hasTimePattern cs) : timeToMinutesList cs = 0 := by
  have hnone : findTimeMatch cs = none := by
    cases hf : findTimeMatch cs with
    | none => rfl
    | some m => exact absurd ((findTimeMatch_isSome_iff cs).mp (by simp [hf])) h
  simp [timeToMinutesList, hnone]

lemma timeToMinutesList_valid {cs : List Char} {h m : Nat} {pm : Bool}
    (hv : ValidTime cs h m pm) (hh : h ≤ 12) :
    timeToMinutesList cs = twelveHourToMinutes h m pm := by
  obtain ⟨d1, d2, hcs, hl1, hl2, hd1, hd2, hh1, hm1⟩ := hv
  have h1 : d1 ≠ [] := by
    rcases hl1 with hl | hl <;> (intro he; subst he; simp at hl)
  have h2 : d2 ≠ [] := by
    intro he; subst he; simp at hl2
  have hmt : matchTimeAt cs = some (d1, d2, pm) := by
    rw [hcs]
    have := matchTimeAt_of_pattern d1 d2 [] pm h1 h2 hd1 hd2
    simpa using this
  have hf := findTimeMatch_of_matchTimeAt hmt
  simp only [timeToMinutesList, hf, hh1, hm1, twelveHourToMinutes]
  cases pm <;> by_cases h12 : h = 12 <;> simp [h12] <;> omega

/-! ## Claim theorems: time utility -/

/-- Claim C4: for every time string of the form `H:MM` or `HH:MM`
immediately followed by `AM` or `PM` (a well-formed 12-hour reading, hour
1–12, minute 0–59), `timeToMinutes` returns minutes since midnight in
0–1439, computed as hour mod 12, plus 12 hours for a PM suffix other than
hour 12 handled so that `12:xxAM ↦ xx` and `12:xxPM ↦ 720 + xx`; the net
value is `(h % 12 + (if PM then 12 else 0)) * 60 + m`. -/
theorem claim_C4_timeToMinutes_valid_form (s : String) (h m : Nat) (pm : Bool)
    (hv : ValidTime s.data h m pm) (_hh1 : 1 ≤ h) (hh : h ≤ 12) (hm : m ≤ 59) :
    timeToMinutes s = (h % 12 + if pm then 12 else 0) * 60 + m ∧
    timeToMinutes s ≤ 1439 := by
  have hval := timeToMinutesList_valid hv hh
  constructor
  · simpa [timeToMinutes, twelveHourToMinutes] using hval
  · rw [timeToMinutes, hval, twelveHourToMinutes]
    have : h % 12 ≤ 11 := Nat.le_of_lt_succ (Nat.mod_lt _ (by norm_num))
    cases pm <;> simp <;> omega

/-- Witness for C4 at the concrete input `"9:05AM"`. -/
theorem claim_C4_timeToMinutes_valid_form_witness :
    timeToMinutes "9:05AM" = (9 % 12 + if false then 12 else 0) * 60 + 5 ∧
    timeToMinutes "9:05AM" ≤ 1439 :=
  claim_C4_timeToMinutes_valid_form "9:05AM" 9 5 false
    ⟨['9'], ['0', '5'], by decide, by decide, by decide, by decide, by decide,
      by decide, by decide⟩ (by decide) (by decide) (by decide)

/-- Claim C7: on every input where the time regex does not match,
`timeToMinutes` raises nothing and returns 0 (it is a total function). -/
theorem claim_C7_timeToMinutes_malformed_default (s : String)
    (h : ¬ hasTimePattern s.data) : timeToMinutes s = 0 :=
  timeToMinutesList_eq_zero_of_no_pattern h

/-- Witness for C7 at the concrete input `"hello"`. -/
theorem claim_C7_timeToMinutes_malformed_default_witness :
    timeToMinutes "hello" = 0 :=
  claim_C7_timeToMinutes_malformed_default "hello" (by
    rw [← findTimeMatch_isSome_iff]
    decide)

/-- Claim C8: `timeToMinutes` is monotonic on valid 12-hour strings (an
earlier wall-clock reading gives a strictly smaller value), and the
anchors `12:00AM ↦ 0`, `12:00PM ↦ 720`, `11:59PM ↦ 1439` hold. -/
theorem claim_C8_timeToMinutes_monotone_and_anchors :
    (∀ (s1 s2 : String) (h1 m1 h2 m2 : Nat) (pm1 pm2 : Bool),
      ValidTime s1.data h1 m1 pm1 → ValidTime s2.data h2 m2 pm2 →
      h1 ≤ 12 → h2 ≤ 12 →
      twelveHourToMinutes h1 m1 pm1 < twelveHourToMinutes h2 m2 pm2 →
      timeToMinutes s1 < timeToMinutes s2) ∧
    timeToMinutes "12:00AM" = 0 ∧ timeToMinutes "12:00PM" = 720 ∧
    timeToMinutes "11:59PM" = 1439 := by
  refine ⟨?_, by decide, by decide, by decide⟩
  intro s1 s2 h1 m1 h2 m2 pm1 pm2 hv1 hv2 hh1 hh2 hlt
  rw [timeToMinutes, timeToMinutesList_valid hv1 hh1,
    timeToMinutes, timeToMinutesList_valid hv2 hh2]
  exact hlt

/-- Witness for C8: 9:05AM is strictly before 10:00AM. -/
theorem claim_C8_timeToMinutes_monotone_and_anchors_witness :
    timeToMinutes "9:05AM" < timeToMinutes "10:00AM" :=
  claim_C8_timeToMinutes_monotone_and_anchors.1 "9:05AM" "10:00AM" 9 5 10 0 false false
    ⟨['9'], ['0', '5'], by decide, by decide, by decide, by decide, by decide,
      by decide, by decide⟩
    ⟨['1', '0'], ['0', '0'], by decide, by decide, by decide, by decide, by decide,
      by decide, by decide⟩
    (by decide) (by decide) (by decide)

/-- Claim C10: the time regex is unanchored and performs no range
validation — a match anywhere in the input is found (iff the pattern
occurs as a substring), the leftmost occurrence is used, inputs with
surrounding text or extra digits do not fall back to the malformed-input
default 0, and out-of-range hour/minute components are accepted
arithmetically, so some inputs map beyond 1439 minutes. -/
theorem claim_C10_regex_unanchored_no_range_validation :
    (∀ cs : List Char, (findTimeMatch cs).isSome = true ↔ hasTimePattern cs) ∧
    timeToMinutes "see 13:30PM today" = 1530 ∧
    timeToMinutes "x1:30AM 2:45PM" = 90 ∧
    timeToMinutes "123:456AM" = 123 * 60 + 456 ∧
    timeToMinutes "13:30PM" = 25 * 60 + 30 ∧
    1439 < timeToMinutes "13:30PM" ∧
    timeToMinutes "1:99PM" = 13 * 60 + 99 :=
  ⟨findTimeMatch_isSome_iff, by decide, by decide, by decide, by decide,
    by decide, by decide⟩

/-! ## Claim theorems: meeting conflict detector -/

/-- The claim-side parse of a time-range token: split it on `-` and
convert the first two pieces with the time utility. `none` when there is
no `-` at all (the range does not parse). -/
def parseTimeRange (t : List Char) : Option (Nat × Nat) :=
  match splitOnChar '-' t with
  | s :: e :: _ => some (timeToMinutesList s, timeToMinutesList e)
  | _ => none

/-- The specification's description of when two meeting strings conflict:
both split on spaces into at least two tokens, the day tokens share a
character, and the parsed time ranges overlap strictly
(`start1 < end2` and `start2 < end1`). -/
def ConflictSpec (m1 m2 : String) : Prop :=
  2 ≤ (splitOnChar ' ' m1.data).length ∧
  2 ≤ (splitOnChar ' ' m2.data).length ∧
  (∃ c, c ∈ (splitOnChar ' ' m1.data).getD 0 [] ∧
        c ∈ (splitOnChar ' ' m2.data).getD 0 []) ∧
  (∃ r1 r2, parseTimeRange ((splitOnChar ' ' m1.data).getD 1 []) = some r1 ∧
            parseTimeRange ((splitOnChar ' ' m2.data).getD 1 []) = some r2 ∧
            r1.1 < r2.2 ∧ r2.1 < r1.2)

lemma meetingsConflict_iff_conflictSpec (m1 m2 : String) :
    meetingsConflict m1 m2 = true ↔ ConflictSpec m1 m2 := by
  simp only [meetingsConflict, ConflictSpec, parseTimeRange]
  split_ifs with hlen hday
  · constructor
    · intro h
      simp at h
    · rintro ⟨hl1, hl2, -⟩
      rcases hlen with hl | hl <;> omega
  · push_neg at hlen
    obtain ⟨c, hc1, hc2⟩ := List.any_eq_true.mp hday
    rcases hs1 : splitOnChar '-' ((splitOnChar ' ' m1.data).getD 1 []) with _ | ⟨s1, l1⟩
    · simp [hs1]
    · rcases l1 with _ | ⟨e1, rest1⟩
      · simp [hs1]
      · rcases hs2 : splitOnChar '-' ((splitOnChar ' ' m2.data).getD 1 []) with _ | ⟨s2, l2⟩
        · simp [hs1, hs2]
        · rcases l2 with _ | ⟨e2, rest2⟩
          · simp [hs1, hs2]
          · simp only [hs1, hs2, decide_eq_true_eq, Option.some.injEq]
            constructor
            · rintro ⟨ha, hb⟩
              exact ⟨hlen.1, hlen.2, ⟨c, hc1, by simpa using hc2⟩,
                ⟨(timeToMinutesList s1, timeToMinutesList e1),
                 (timeToMinutesList s2, timeToMinutesList e2), rfl, rfl, ha, hb⟩⟩
            · rintro ⟨-, -, -, ⟨r1, r2, he1, he2, hlt1, hlt2⟩⟩
              rw [← he1, ← he2] at *
              exact ⟨hlt1, hlt2⟩
  · constructor
    · intro h
      simp at h
    · rintro ⟨-, -, ⟨c, hc1, hc2⟩, -⟩
      exact hday (List.any_eq_true.mpr ⟨c, hc1, by simpa using hc2⟩)

/-- Claim C1: `meetingsConflict` returns `true` exactly when both meeting
strings have at least two space-delimited tokens, the day tokens
intersect, and the parsed time ranges strictly overlap; in particular
malformed input and disjoint day patterns give `false`, and back-to-back
meetings do not conflict. -/
theorem claim_C1_meetingsConflict_iff_spec :
    (∀ m1 m2 : String, meetingsConflict m1 m2 = true ↔ ConflictSpec m1 m2) ∧
    meetingsConflict "MW 09:00AM-10:00AM" "MW 10:00AM-11:00AM" = false ∧
    meetingsConflict "MW" "MW 10:00AM-11:00AM" = false ∧
    meetingsConflict "MW 10:10AM-11:25AM" "TR 02:55PM-04:10PM" = false :=
  ⟨meetingsConflict_iff_conflictSpec, by decide, by decide, by decide⟩

/-! ## Claim theorems: schedule conflict scanner -/

lemma range_flatMap_succ {β : Type} (n : Nat) (g : Nat → List β) :
    (List.range (n + 1)).flatMap g = g 0 ++ (List.range n).flatMap (fun i => g (i + 1)) := by
  rw [List.range_succ_eq_map, List.flatMap_cons, List.flatMap_map]

lemma range_flatMap_getD {α β : Type} (l : List α) (d : α) (F : α → List β) :
    (List.range l.length).flatMap (fun i => F (l.getD i d)) = l.flatMap F := by
  induction l with
  | nil => simp
  | cons c rest ih =>
    rw [List.length_cons, range_flatMap_succ, List.flatMap_cons]
    simp only [List.getD_cons_zero, List.getD_cons_succ]
    rw [ih]

/-- The scanner as the specification words it: an exhaustive pass over
all index pairs `(i, j)` with `i < j` (in loop order), emitting the
conflict records of every such course pair. -/
def findConflictsSpec (courses : List Course) : List Conflict :=
  (List.range courses.length).flatMap fun i =>
    (List.range courses.length).flatMap fun j =>
      if i < j then
        conflictsBetween (courses.getD i default) (courses.getD j default)
      else []

lemma findConflicts_eq_spec : ∀ courses, findConflicts courses = findConflictsSpec courses
  | [] => rfl
  | c :: rest => by
    have hn : (c :: rest).length = rest.length + 1 := rfl
    rw [findConflicts, findConflicts_eq_spec rest]
    unfold findConflictsSpec
    rw [hn, range_flatMap_succ]
    congr 1
    · rw [range_flatMap_succ]
      simp only [Nat.lt_irrefl, if_false, List.nil_append, Nat.succ_pos, if_true,
        List.getD_cons_zero, List.getD_cons_succ]
      exact (range_flatMap_getD rest default (conflictsBetween c)).symm
    · have hpt : ∀ i : Nat,
          ((List.range (rest.length + 1)).flatMap fun j =>
            if i + 1 < j then
              conflictsBetween ((c :: rest).getD (i + 1) default)
                ((c :: rest).getD j default)
            else []) =
          ((List.range rest.length).flatMap fun j =>
            if i < j then
              conflictsBetween (rest.getD i default) (rest.getD j default)
            else []) := by
        intro i
        rw [range_flatMap_succ]
        simp only [Nat.not_lt_zero, if_false, List.nil_append, Nat.add_lt_add_iff_right,
          List.getD_cons_succ]
      simp only [hpt]

/-- The CS 2110 lecture of the end-to-end scenario. -/
def cs2110 : Course :=
  { subject := "CS", catalog_nbr := "2110", title := "LEC",
    meetings := ["MW 10:10AM-11:25AM"] }

/-- The MATH 1920 lecture of the end-to-end scenario. -/
def math1920 : Course :=
  { subject := "MATH", catalog_nbr := "1920", title := "LEC",
    meetings := ["MW 11:15AM-12:05PM"] }

/-- Claim C2: `findConflicts` is the exhaustive pairwise scan over all
index pairs `(i, j)` with `i < j` (no deduplication), emitting one record
per conflicting meeting pair, and the two-course example schedule
produces exactly one conflict record. -/
theorem claim_C2_findConflicts_pairwise_scan :
    (∀ courses : List Course, findConflicts courses = findConflictsSpec courses) ∧
    findConflicts [cs2110, math1920] =
      [mkConflict cs2110 math1920 "MW 10:10AM-11:25AM" "MW 11:15AM-12:05PM"] ∧
    (findConflicts [cs2110, math1920]).length = 1 :=
  ⟨findConflicts_eq_spec, by decide, by decide⟩

lemma meetingsConflict_comm (m1 m2 : String) :
    meetingsConflict m1 m2 = meetingsConflict m2 m1 := by
  have h1 := meetingsConflict_iff_conflictSpec m1 m2
  have h2 := meetingsConflict_iff_conflictSpec m2 m1
  have hsym : ConflictSpec m1 m2 ↔ ConflictSpec m2 m1 := by
    constructor <;>
      rintro ⟨a, b, ⟨c, hc1, hc2⟩, ⟨r1, r2, e1, e2, l1, l2⟩⟩ <;>
      exact ⟨b, a, ⟨c, hc2, hc1⟩, ⟨r2, r1, e2, e1, l2, l1⟩⟩
  by_cases hb : meetingsConflict m1 m2 = true
  · rw [hb, Eq.comm, h2]
    exact hsym.mp (h1.mp hb)
  · have hb2 : ¬ meetingsConflict m2 m1 = true :=
      fun hc => hb (h1.mpr (hsym.mpr (h2.mp hc)))
    rw [Bool.not_eq_true] at hb hb2
    rw [hb, hb2]

lemma mem_conflictsBetween {A B : Course} {r : Conflict} :
    r ∈ conflictsBetween A B ↔
      ∃ m1, m1 ∈ A.meetings ∧ ∃ m2, m2 ∈ B.meetings ∧
        meetingsConflict m1 m2 = true ∧ r = mkConflict A B m1 m2 := by
  simp only [conflictsBetween, List.mem_flatMap, List.mem_filterMap]
  constructor
  · rintro ⟨m1, hm1, m2, hm2, hif⟩
    by_cases hc : meetingsConflict m1 m2 = true
    · rw [if_pos hc] at hif
      exact ⟨m1, hm1, m2, hm2, hc, (Option.some.injEq _ _ ▸ hif).symm⟩
    · rw [if_neg hc] at hif
      cases hif
  · rintro ⟨m1, hm1, m2, hm2, hc, rfl⟩
    exact ⟨m1, hm1, m2, hm2, by rw [if_pos hc]⟩

lemma findConflicts_pair (A B : Course) :
    findConflicts [A, B] = conflictsBetween A B := by
  simp [findConflicts]

/-- Counterexample to C9 as literally stated: scanning `[B, A]` and then
swapping only the two course-label fields of each record does not
reproduce the records of scanning `[A, B]`, because the reason string
keeps its original meeting order. -/
theorem claim_C9_counterexample :
    findConflicts [cs2110, math1920] ≠
      (findConflicts [math1920, cs2110]).map
        (fun r => { course1 := r.course2, course2 := r.course1, reason := r.reason }) := by
  decide

/-- Claim C9 (amended): `meetingsConflict` is symmetric, and the two scan
orders detect exactly the same conflicting meeting pairs — each
conflicting pair `(m1, m2)` puts its record in `findConflicts [A, B]` and
the fully mirrored record (course labels and meeting strings both
swapped) in `findConflicts [B, A]`, and every record of
`findConflicts [A, B]` arises from such a pair with its mirrored record
present in `findConflicts [B, A]`. -/
theorem claim_C9_scanner_symmetry_mirrored :
    (∀ m1 m2 : String, meetingsConflict m1 m2 = meetingsConflict m2 m1) ∧
    (∀ (A B : Course) (m1 m2 : String),
      m1 ∈ A.meetings → m2 ∈ B.meetings → meetingsConflict m1 m2 = true →
      mkConflict A B m1 m2 ∈ findConflicts [A, B] ∧
      mkConflict B A m2 m1 ∈ findConflicts [B, A]) ∧
    (∀ (A B : Course) (r : Conflict), r ∈ findConflicts [A, B] →
      ∃ m1 m2, m1 ∈ A.meetings ∧ m2 ∈ B.meetings ∧
        meetingsConflict m1 m2 = true ∧ r = mkConflict A B m1 m2 ∧
        mkConflict B A m2 m1 ∈ findConflicts [B, A]) := by
  refine ⟨meetingsConflict_comm, ?_, ?_⟩
  · intro A B m1 m2 h1 h2 hc
    rw [findConflicts_pair, findConflicts_pair]
    refine ⟨mem_conflictsBetween.mpr ⟨m1, h1, m2, h2, hc, rfl⟩, ?_⟩
    refine mem_conflictsBetween.mpr ⟨m2, h2, m1, h1, ?_, rfl⟩
    rw [meetingsConflict_comm]
    exact hc
  · intro A B r hr
    rw [findConflicts_pair] at hr
    obtain ⟨m1, h1, m2, h2, hc, rfl⟩ := mem_conflictsBetween.mp hr
    refine ⟨m1, m2, h1, h2, hc, rfl, ?_⟩
    rw [findConflicts_pair]
    refine mem_conflictsBetween.mpr ⟨m2, h2, m1, h1, ?_, rfl⟩
    rw [meetingsConflict_comm]
    exact hc

/-- Witness for C9 (amended) on the two-course example schedule. -/
theorem claim_C9_scanner_symmetry_mirrored_witness :
    mkConflict cs2110 math1920 "MW 10:10AM-11:25AM" "MW 11:15AM-12:05PM" ∈
      findConflicts [cs2110, math1920] ∧
    mkConflict math1920 cs2110 "MW 11:15AM-12:05PM" "MW 10:10AM-11:25AM" ∈
      findConflicts [math1920, cs2110] :=
  claim_C9_scanner_symmetry_mirrored.2.1 cs2110 math1920
    "MW 10:10AM-11:25AM" "MW 11:15AM-12:05PM" (by decide) (by decide) (by decide)

/-! ## Claim theorems: calendar color assignment -/

lemma foldl_preserve {α β : Type} (P : β → Prop) (f : β → α → β)
    (hf : ∀ b a, P b → P (f b a)) :
    ∀ (l : List α) (b : β), P b → P (List.foldl f b l)
  | [], _, hb => hb
  | a :: l, b, hb => foldl_preserve P f hf l (f b a) (hf b a hb)

/-- Invariant of the color map under construction: keys are distinct and
the `i`-th entry carries the `i`-th palette color (cyclically). -/
def ColorMapOK (acc : List (String × String)) : Prop :=
  (acc.map Prod.fst).Nodup ∧
  ∀ (i : Nat) (h : i < acc.length), acc[i].2 = COLORS.getD (i % COLORS.length) ""

lemma colorStep_preserves (acc : List (String × String)) (c : Course)
    (h : ColorMapOK acc) : ColorMapOK (colorStep acc c) := by
  obtain ⟨hn, hg⟩ := h
  unfold colorStep
  by_cases hf : ((acc.find? fun e => e.1 = courseKey c).isSome = true)
  · rw [if_pos hf]
    exact ⟨hn, hg⟩
  · rw [if_neg hf]
    have hnone := Option.not_isSome_iff_eq_none.mp hf
    rw [List.find?_eq_none] at hnone
    constructor
    · rw [List.map_append, List.nodup_append]
      refine ⟨hn, List.nodup_singleton _, ?_⟩
      rw [List.map_singleton, List.disjoint_singleton]
      intro hmem
      obtain ⟨e, he, hke⟩ := List.mem_map.mp hmem
      exact absurd (by simpa using hke) (by simpa using hnone e he)
    · intro i h
      rw [List.length_append, List.length_singleton] at h
      by_cases hi : i < acc.length
      · rw [List.getElem_append_left hi]
        exact hg i hi
      · have hieq : i = acc.length := by omega
        rw [List.getElem_concat_length _ _ _ hieq]
        rw [hieq]

lemma buildColorMap_ok (courses : List Course) : ColorMapOK (buildColorMap courses) :=
  foldl_preserve ColorMapOK colorStep colorStep_preserves courses []
    ⟨List.nodup_nil, fun i h => absurd h (by simp)⟩

lemma find?_key_getElem {l : List (String × String)}
    (hn : (l.map Prod.fst).Nodup) (i : Nat) (h : i < l.length) :
    (l.find? fun e => e.1 = l[i].1) = some l[i] := by
  induction l generalizing i with
  | nil => simp at h
  | cons e l ih =>
    rw [List.map_cons, List.nodup_cons] at hn
    cases i with
    | zero => simp [List.find?_cons]
    | succ i =>
      have hi : i < l.length := by simpa using h
      have hne : ¬ e.1 = l[i].1 := by
        intro heq
        exact hn.1 (heq ▸ List.mem_map.mpr ⟨l[i], List.getElem_mem hi, rfl⟩)
      simp only [List.getElem_cons_succ, List.find?_cons]
      rw [decide_eq_false hne]
      exact ih hn.2 i hi

lemma lookupColor_getElem (courses : List Course) (i : Nat)
    (h : i < (buildColorMap courses).length) :
    lookupColor courses ((buildColorMap courses)[i]).1 =
      ((buildColorMap courses)[i]).2 := by
  rw [lookupColor, find?_key_getElem (buildColorMap_ok courses).1 i h]
  rfl

/-- Every block of every bucket carries the color of its own course key. -/
def BlocksColored (courses : List Course) (dayMap : List (String × List CourseBlock)) : Prop :=
  ∀ e ∈ dayMap, ∀ b ∈ e.2, b.color = lookupColor courses b.course

lemma pushBlock_preserves {courses : List Course}
    {dayMap : List (String × List CourseBlock)} {day : String} {b : CourseBlock}
    (h : BlocksColored courses dayMap)
    (hb : b.color = lookupColor courses b.course) :
    BlocksColored courses (pushBlock dayMap day b) := by
  intro e he b' hb'
  rw [pushBlock] at he
  obtain ⟨e0, he0, heq⟩ := List.mem_map.mp he
  by_cases hd : e0.1 = day
  · rw [if_pos hd] at heq
    subst heq
    rcases List.mem_append.mp hb' with h1 | h1
    · exact h e0 he0 b' h1
    · rw [List.mem_singleton] at h1
      subst h1
      exact hb
  · rw [if_neg hd] at heq
    subst heq
    exact h e0 he0 b' hb'

lemma parseCourseMeetings_colors (courses : List Course) :
    BlocksColored courses (parseCourseMeetings courses) := by
  unfold parseCourseMeetings
  refine foldl_preserve _ _ ?_ _ _ ?_
  · intro dayMap course hP
    refine foldl_preserve _ _ ?_ _ _ hP
    intro dm meeting hP2
    dsimp only
    by_cases hlen : (splitOnChar ' ' meeting.data).length < 2
    · rw [if_pos hlen]
      exact hP2
    · rw [if_neg hlen]
      refine foldl_preserve _ _ ?_ _ _ hP2
      intro dm2 dayCode hP3
      dsimp only
      by_cases hd : DAYS.contains (String.mk [dayCode]) = true
      · rw [if_pos hd]
        exact pushBlock_preserves hP3 rfl
      · rw [if_neg hd]
        exact hP3
  · intro e he b hb
    obtain ⟨d, hd, heq⟩ := List.mem_map.mp he
    rw [← heq] at hb
    simp at hb

/-- Claim C3: calendar colors are assigned per distinct
`(subject, catalog_nbr)` key from a fixed cyclic palette of 7 distinct
colors; all blocks of the same key share one color, every block's color
is the one assigned to its key, the color assigned to the `i`-th distinct
key is the `i`-th entry of the map, and the first 7 distinct keys receive
pairwise different colors. -/
theorem claim_C3_calendar_color_invariant :
    (∀ (courses : List Course) (e1 e2 : String × List CourseBlock)
        (b1 b2 : CourseBlock),
      e1 ∈ parseCourseMeetings courses → e2 ∈ parseCourseMeetings courses →
      b1 ∈ e1.2 → b2 ∈ e2.2 → b1.course = b2.course → b1.color = b2.color) ∧
    COLORS.length = 7 ∧ COLORS.Nodup ∧
    (∀ (courses : List Course) (e : String × List CourseBlock) (b : CourseBlock),
      e ∈ parseCourseMeetings courses → b ∈ e.2 →
      b.color = lookupColor courses b.course) ∧
    (∀ (courses : List Course) (i : Nat) (hi : i < (buildColorMap courses).length),
      lookupColor courses ((buildColorMap courses).get ⟨i, hi⟩).1 =
        ((buildColorMap courses).get ⟨i, hi⟩).2) ∧
    (∀ (courses : List Course) (i j : Nat) (hi : i < (buildColorMap courses).length)
        (hj : j < (buildColorMap courses).length),
      i < 7 → j < 7 → i ≠ j →
      ((buildColorMap courses).get ⟨i, hi⟩).2 ≠
        ((buildColorMap courses).get ⟨j, hj⟩).2) := by
  refine ⟨?_, by decide, by decide, ?_, ?_, ?_⟩
  · intro courses e1 e2 b1 b2 he1 he2 hb1 hb2 hc
    have h1 := parseCourseMeetings_colors courses e1 he1 b1 hb1
    have h2 := parseCourseMeetings_colors courses e2 he2 b2 hb2
    rw [h1, h2, hc]
  · exact fun courses e b he hb => parseCourseMeetings_colors courses e he b hb
  · intro courses i hi
    exact lookupColor_getElem courses i hi
  · intro courses i j hi hj hi7 hj7 hne
    have hg := (buildColorMap_ok courses).2
    show ((buildColorMap courses)[i]).2 ≠ ((buildColorMap courses)[j]).2
    rw [hg i hi, hg j hj]
    have hlen : COLORS.length = 7 := by decide
    rw [hlen, Nat.mod_eq_of_lt hi7, Nat.mod_eq_of_lt hj7]
    exact (by decide :
      ∀ a : Nat, a < 7 → ∀ b : Nat, b < 7 → a ≠ b →
        COLORS.getD a "" ≠ COLORS.getD b "") i hi7 j hj7 hne

/-- Witness for C3 on the two-course example: the CS 2110 block of the
Monday bucket shares its own color, and the first two distinct keys get
different colors. -/
theorem claim_C3_calendar_color_invariant_witness :
    (⟨"CS 2110", "LEC", "10:10AM", "11:25AM", "#3b82f6"⟩ : CourseBlock).color =
      (⟨"CS 2110", "LEC", "10:10AM", "11:25AM", "#3b82f6"⟩ : CourseBlock).color ∧
    ((buildColorMap [cs2110, math1920]).get ⟨0, by decide⟩).2 ≠
      ((buildColorMap [cs2110, math1920]).get ⟨1, by decide⟩).2 :=
  ⟨claim_C3_calendar_color_invariant.1 [cs2110, math1920]
      ("M", [⟨"CS 2110", "LEC", "10:10AM", "11:25AM", "#3b82f6"⟩,
             ⟨"MATH 1920", "LEC", "11:15AM", "12:05PM", "#ef4444"⟩])
      ("M", [⟨"CS 2110", "LEC", "10:10AM", "11:25AM", "#3b82f6"⟩,
             ⟨"MATH 1920", "LEC", "11:15AM", "12:05PM", "#ef4444"⟩])
      ⟨"CS 2110", "LEC", "10:10AM", "11:25AM", "#3b82f6"⟩
      ⟨"CS 2110", "LEC", "10:10AM", "11:25AM", "#3b82f6"⟩
      (by decide) (by decide) (by decide) (by decide) rfl,
   claim_C3_calendar_color_invariant.2.2.2.2.2 [cs2110, math1920] 0 1
      (by decide) (by decide) (by decide) (by decide) (by decide)⟩

/-! ## Claim theorems: calendar block geometry -/

/-- Claim C6: every rendered block sits in one of the five day columns of
width `(width − timeColumnWidth)/5`, at vertical position
`headerHeight + (start/60 − startHour) · hourHeight`, with height
`(end − start)/60 · hourHeight`, and at horizontal position
`timeColumnWidth + dayIdx · dayWidth + 5` (a fixed 5px inner margin, the
block being 10px narrower than the column); the default configuration is
a 900×700 canvas, 50px header, 80px time column, 50px per hour and an
8AM–8PM window. -/
theorem claim_C6_generateCourseBlocks_geometry :
    (∀ (dayMap : List (String × List CourseBlock)) (config : CalendarConfig)
        (g : BlockGeom), g ∈ generateCourseBlocks dayMap config →
      g.dayIdx < 5 ∧
      g.y = config.headerHeight +
        ((timeToMinutes g.startTime : ℚ) / 60 - config.startHour) * config.hourHeight ∧
      g.h = (((timeToMinutes g.endTime : ℚ) - (timeToMinutes g.startTime : ℚ)) / 60) *
        config.hourHeight ∧
      g.x = config.timeColumnWidth +
        (g.dayIdx : ℚ) * ((config.width - config.timeColumnWidth) / 5) + 5 ∧
      g.w = (config.width - config.timeColumnWidth) / 5 - 10) ∧
    DEFAULT_CONFIG =
      { width := 900, height := 700, headerHeight := 50, timeColumnWidth := 80,
        hourHeight := 50, startHour := 8, endHour := 20 } := by
  refine ⟨?_, rfl⟩
  intro dayMap config g hg
  unfold generateCourseBlocks at hg
  rw [List.mem_flatMap] at hg
  obtain ⟨p, hp, hg2⟩ := hg
  obtain ⟨i, d⟩ := p
  rw [List.mem_map] at hg2
  obtain ⟨block, hb, heq⟩ := hg2
  obtain ⟨hi, -⟩ := List.mem_enum hp
  subst heq
  exact ⟨by simpa using hi, rfl, rfl, rfl, rfl⟩

/-- The geometry of the CS 2110 Monday block under the default
configuration. -/
def exampleBlockGeom : BlockGeom :=
  { dayIdx := 0, x := 85, y := 475 / 3, w := 154, h := 125 / 2,
    color := "#3b82f6", course := "CS 2110",
    startTime := "10:10AM", endTime := "11:25AM" }

/-- Witness for C6: the concrete CS 2110 Monday block satisfies the
geometry formulas under the default configuration. -/
theorem claim_C6_generateCourseBlocks_geometry_witness :
    exampleBlockGeom.dayIdx < 5 ∧
    exampleBlockGeom.y = DEFAULT_CONFIG.headerHeight +
      ((timeToMinutes exampleBlockGeom.startTime : ℚ) / 60 - DEFAULT_CONFIG.startHour) *
        DEFAULT_CONFIG.hourHeight ∧
    exampleBlockGeom.h = (((timeToMinutes exampleBlockGeom.endTime : ℚ) -
        (timeToMinutes exampleBlockGeom.startTime : ℚ)) / 60) *
        DEFAULT_CONFIG.hourHeight ∧
    exampleBlockGeom.x = DEFAULT_CONFIG.timeColumnWidth +
      (exampleBlockGeom.dayIdx : ℚ) *
        ((DEFAULT_CONFIG.width - DEFAULT_CONFIG.timeColumnWidth) / 5) + 5 ∧
    exampleBlockGeom.w = (DEFAULT_CONFIG.width - DEFAULT_CONFIG.timeColumnWidth) / 5 - 10 :=
  claim_C6_generateCourseBlocks_geometry.1
    [("M", [⟨"CS 2110", "LEC", "10:10AM", "11:25AM", "#3b82f6"⟩])]
    DEFAULT_CONFIG exampleBlockGeom (by
      have h1 : timeToMinutes "10:10AM" = 610 := by decide
      have h2 : timeToMinutes "11:25AM" = 685 := by decide
      have hgen : generateCourseBlocks
          [("M", [⟨"CS 2110", "LEC", "10:10AM", "11:25AM", "#3b82f6"⟩])]
          DEFAULT_CONFIG = [exampleBlockGeom] := by
        simp only [generateCourseBlocks, DAYS, DEFAULT_CONFIG, List.enum,
          List.enumFrom, List.flatMap_cons, List.flatMap_nil, List.find?,
          List.map_cons, List.map_nil, exampleBlockGeom]
        simp [h1, h2]
        norm_num
      rw [hgen]
      exact List.mem_singleton_self _)

/-! ## Claim theorems: schedule removal -/

lemma removeMatches_iff (coursesTable : List CourseRow)
    (userId subject catalogNbr : String) (e : ScheduleEntry) :
    removeMatches coursesTable userId subject catalogNbr e = true ↔
      e.user_id = userId ∧ ∃ c ∈ coursesTable,
        c.id = e.course_id ∧ c.subject = subject ∧ c.catalog_nbr = catalogNbr := by
  simp [removeMatches, List.any_eq_true]

/-- The row filter of the removal tool's `DELETE`: a row survives when it
does not match the `WHERE` clause. -/
def removePred (coursesTable : List CourseRow) (userId courseId : String)
    (e : ScheduleEntry) : Bool :=
  ¬ removeMatches coursesTable userId
      (String.mk ((splitOnChar '-' courseId.data).getD 0 []))
      (String.mk ((splitOnChar '-' courseId.data).getD 1 [])) e

lemma removeCourseFromSchedule_eq (coursesTable : List CourseRow)
    (schedules : List ScheduleEntry) (userId courseId : String) :
    removeCourseFromSchedule coursesTable schedules userId courseId =
      if schedules.length -
          (schedules.filter (removePred coursesTable userId courseId)).length = 0 then
        (schedules.filter (removePred coursesTable userId courseId),
          "Course " ++ courseId ++ " was not in your schedule.")
      else
        (schedules.filter (removePred coursesTable userId courseId),
          "Successfully removed course " ++ courseId ++ " from your schedule.") := rfl

/-- Claim C5: removal by compound key deletes exactly the requesting
user's schedule entries whose referenced course record has the given
subject and catalog number (all sections), touches nothing else (the
surviving rows are a sublist of the original ones), and reports that the
course was not in the schedule when nothing matches. -/
theorem claim_C5_removeCourseFromSchedule_scope
    (coursesTable : List CourseRow) (schedules : List ScheduleEntry)
    (userId courseId : String) :
    ((removeCourseFromSchedule coursesTable schedules userId courseId).1).Sublist
      schedules ∧
    (∀ e : ScheduleEntry,
      e ∈ (removeCourseFromSchedule coursesTable schedules userId courseId).1 ↔
        e ∈ schedules ∧
        ¬ (e.user_id = userId ∧ ∃ c ∈ coursesTable,
            c.id = e.course_id ∧
            c.subject = String.mk ((splitOnChar '-' courseId.data).getD 0 []) ∧
            c.catalog_nbr = String.mk ((splitOnChar '-' courseId.data).getD 1 []))) ∧
    ((∀ e ∈ schedules,
        ¬ (e.user_id = userId ∧ ∃ c ∈ coursesTable,
            c.id = e.course_id ∧
            c.subject = String.mk ((splitOnChar '-' courseId.data).getD 0 []) ∧
            c.catalog_nbr = String.mk ((splitOnChar '-' courseId.data).getD 1 []))) →
      (removeCourseFromSchedule coursesTable schedules userId courseId).2 =
        "Course " ++ courseId ++ " was not in your schedule.") := by
  have hfst : (removeCourseFromSchedule coursesTable schedules userId courseId).1 =
      schedules.filter (removePred coursesTable userId courseId) := by
    rw [removeCourseFromSchedule_eq]
    split_ifs <;> rfl
  have hpred : ∀ e : ScheduleEntry,
      removePred coursesTable userId courseId e = true ↔
        ¬ (e.user_id = userId ∧ ∃ c ∈ coursesTable,
            c.id = e.course_id ∧
            c.subject = String.mk ((splitOnChar '-' courseId.data).getD 0 []) ∧
            c.catalog_nbr = String.mk ((splitOnChar '-' courseId.data).getD 1 [])) := by
    intro e
    rw [removePred, ← removeMatches_iff coursesTable userId _ _ e]
    simp
  refine ⟨?_, ?_, ?_⟩
  · rw [hfst]
    exact List.filter_sublist _
  · intro e
    rw [hfst, List.mem_filter, hpred e]
  · intro hnone
    have hall : schedules.filter (removePred coursesTable userId courseId) =
        schedules := by
      rw [List.filter_eq_self]
      intro e he
      rw [hpred e]
      exact hnone e he
    rw [removeCourseFromSchedule_eq, hall, Nat.sub_self, if_pos rfl]

/-- Witness for C5: removing `CS-2110` for user `u1` keeps `u1`'s MATH
entry, and removing a course that is not in the schedule reports so. -/
theorem claim_C5_removeCourseFromSchedule_scope_witness :
    (⟨"u1", "MATH-1920-101-3"⟩ : ScheduleEntry) ∈
      (removeCourseFromSchedule
        [⟨"CS-2110-101-1", "CS", "2110"⟩, ⟨"CS-2110-102-2", "CS", "2110"⟩,
         ⟨"MATH-1920-101-3", "MATH", "1920"⟩]
        [⟨"u1", "CS-2110-101-1"⟩, ⟨"u1", "CS-2110-102-2"⟩,
         ⟨"u1", "MATH-1920-101-3"⟩, ⟨"u2", "CS-2110-101-1"⟩]
        "u1" "CS-2110").1 ∧
    (removeCourseFromSchedule
        [⟨"CS-2110-101-1", "CS", "2110"⟩, ⟨"CS-2110-102-2", "CS", "2110"⟩,
         ⟨"MATH-1920-101-3", "MATH", "1920"⟩]
        [⟨"u1", "CS-2110-101-1"⟩, ⟨"u1", "CS-2110-102-2"⟩,
         ⟨"u1", "MATH-1920-101-3"⟩, ⟨"u2", "CS-2110-101-1"⟩]
        "u1" "PHYS-1112").2 = "Course PHYS-1112 was not in your schedule." :=
  ⟨((claim_C5_removeCourseFromSchedule_scope
      [⟨"CS-2110-101-1", "CS", "2110"⟩, ⟨"CS-2110-102-2", "CS", "2110"⟩,
       ⟨"MATH-1920-101-3", "MATH", "1920"⟩]
      [⟨"u1", "CS-2110-101-1"⟩, ⟨"u1", "CS-2110-102-2"⟩,
       ⟨"u1", "MATH-1920-101-3"⟩, ⟨"u2", "CS-2110-101-1"⟩]
      "u1" "CS-2110").2.1 _).mpr ⟨by decide, by decide⟩,
   (claim_C5_removeCourseFromSchedule_scope
      [⟨"CS-2110-101-1", "CS", "2110"⟩, ⟨"CS-2110-102-2", "CS", "2110"⟩,
       ⟨"MATH-1920-101-3", "MATH", "1920"⟩]
      [⟨"u1", "CS-2110-101-1"⟩, ⟨"u1", "CS-2110-102-2"⟩,
       ⟨"u1", "MATH-1920-101-3"⟩, ⟨"u2", "CS-2110-101-1"⟩]
      "u1" "PHYS-1112").2.2 (by decide)⟩
